import Mathlib

/-!
Shallow embedding of `src/docs/inspo/003_yt_as_immersion_content.py`, a batch
script that downloads YouTube subtitles, extracts vocabulary via an LLM
completion collaborator, and accumulates four kinds of records (resources,
vocab, translations, notes) with sequential string ids.

Modelling conventions:
* The four global accumulator lists and four id counters become the explicit
  state record `St`, threaded through every operation.
* Python string truthiness (`if content:`) becomes emptiness tests; `None`
  becomes `Option`.
* Python `str.strip()` is embedded as `pyStrip` (drop leading and trailing
  whitespace), a kernel-computable function over the character list.
* The two network collaborators (YouTube transcript fetch, OpenAI completion)
  are out of scope per the spec and enter as oracle parameters: a fetch result
  `Except String FetchedTranscript` and a completion oracle producing a
  `CompletionResult` per (line, language) pair.
* A raised Python exception that propagates is `Except.error`; exceptions that
  are caught and turned into a sentinel value are modelled by that value.
* JSON objects in the completion response are modelled by `VocabJson`, a
  record of the three fields the code reads (`original`, `word`,
  `translation`), each `Option String` (absent key and JSON null both read as
  `none` via `dict.get`).  Non-string field values, which would raise inside
  `str.strip` and empty the line exactly like an absent translation, are
  outside the model.
-/

/-- Python `str.strip()`: remove leading and trailing whitespace. -/
def pyStrip (s : String) : String :=
  String.mk (((s.data.dropWhile Char.isWhitespace).reverse.dropWhile Char.isWhitespace).reverse)

/-- Record shape written to notes.jsonl (`create_note`); optional fields are
`none` when the source omits the key. -/
structure Note where
  id : String
  content : String
  noteType : Option String := none
  showBeforeExercice : Option Bool := none
deriving DecidableEq, Repr

/-- Record shape written to translations.jsonl (`create_translation`). -/
structure Translation where
  id : String
  content : String
  notes : Option (List String) := none
deriving DecidableEq, Repr

/-- Record shape written to vocab.jsonl (`create_vocab`). -/
structure Vocab where
  id : String
  language : String
  content : String
  consideredCharacter : Option Bool := none
  consideredSentence : Option Bool := none
  consideredWord : Option Bool := none
  priority : Option Int := none
  notes : Option (List String) := none
  translations : Option (List String) := none
deriving DecidableEq, Repr

/-- Record shape written to resources.jsonl (`create_resource`). -/
structure Resource where
  id : String
  isImmersionContent : Bool := true
  language : String
  title : String
  content : Option String := none
  priority : Option Int := none
  link : Option String := none
  vocab : Option (List String) := none
  notes : Option (List String) := none
  factCards : Option (List String) := none
deriving DecidableEq, Repr

/-- The script's global mutable state: the four accumulator lists
(`resource_data`, `vocab_data`, `translation_data`, `note_data`) and the four
id counters. -/
structure St where
  resource_data : List Resource := []
  vocab_data : List Vocab := []
  translation_data : List Translation := []
  note_data : List Note := []
  resource_id : Nat := 0
  vocab_id : Nat := 0
  translation_id : Nat := 0
  note_id : Nat := 0
deriving DecidableEq, Repr

/-- Initial state of a run: empty accumulators, all counters zero. -/
def initSt : St := {}

/-- Source `get_next_resource_id`: increment the counter, return `str` of it. -/
def get_next_resource_id (s : St) : String × St :=
  (toString (s.resource_id + 1), { s with resource_id := s.resource_id + 1 })

/-- Source `get_next_vocab_id`. -/
def get_next_vocab_id (s : St) : String × St :=
  (toString (s.vocab_id + 1), { s with vocab_id := s.vocab_id + 1 })

/-- Source `get_next_translation_id`. -/
def get_next_translation_id (s : St) : String × St :=
  (toString (s.translation_id + 1), { s with translation_id := s.translation_id + 1 })

/-- Source `get_next_note_id`. -/
def get_next_note_id (s : St) : String × St :=
  (toString (s.note_id + 1), { s with note_id := s.note_id + 1 })

/-- Python truthiness filter for an optional string argument
(`if note_type:` keeps only a non-empty string). -/
def truthyStr (o : Option String) : Option String :=
  match o with
  | some t => if t = "" then none else some t
  | none => none

/-- Python truthiness filter for an optional list argument
(`if notes:` keeps only a non-empty list). -/
def truthyList (o : Option (List String)) : Option (List String) :=
  match o with
  | some l => if l = [] then none else some l
  | none => none

/-- Source `create_note`: returns `none` without touching state when the
content is falsy, otherwise assigns the next note id and appends the entry. -/
def create_note (content : String) (note_type : Option String)
    (show_before_exercise : Option Bool) (s : St) : Option String × St :=
  if content = "" then (none, s)
  else
    let (nid, s1) := get_next_note_id s
    let entry : Note :=
      { id := nid, content := content,
        noteType := truthyStr note_type,
        showBeforeExercice := show_before_exercise }
    (some nid, { s1 with note_data := s1.note_data ++ [entry] })

/-- Source `create_translation`: returns `none` without touching state when
the content is falsy, otherwise assigns the next translation id and appends
the entry. -/
def create_translation (content : String) (notes : Option (List String))
    (s : St) : Option String × St :=
  if content = "" then (none, s)
  else
    let (tid, s1) := get_next_translation_id s
    let entry : Translation := { id := tid, content := content, notes := truthyList notes }
    (some tid, { s1 with translation_data := s1.translation_data ++ [entry] })

/-- Source `create_vocab`: always assigns the next vocab id and appends an
entry; `considered_*` and `priority` use `is not None` checks (kept as given),
`notes` and `translations` use truthiness checks. -/
def create_vocab (language content : String)
    (considered_character considered_sentence considered_word : Option Bool)
    (notes translations : Option (List String)) (priority : Option Int)
    (s : St) : String × St :=
  let (vid, s1) := get_next_vocab_id s
  let entry : Vocab :=
    { id := vid, language := language, content := content,
      consideredCharacter := considered_character,
      consideredSentence := considered_sentence,
      consideredWord := considered_word,
      priority := priority,
      notes := truthyList notes,
      translations := truthyList translations }
  (vid, { s1 with vocab_data := s1.vocab_data ++ [entry] })

/-- Source `create_resource`: always assigns the next resource id and appends
an entry with `isImmersionContent := true`. -/
def create_resource (language title : String) (content : Option String)
    (priority : Option Int) (link : Option String)
    (vocab notes fact_cards : Option (List String))
    (s : St) : String × St :=
  let (rid, s1) := get_next_resource_id s
  let entry : Resource :=
    { id := rid, isImmersionContent := true, language := language, title := title,
      content := truthyStr content, priority := priority, link := truthyStr link,
      vocab := truthyList vocab, notes := truthyList notes,
      factCards := truthyList fact_cards }
  (rid, { s1 with resource_data := s1.resource_data ++ [entry] })

/-- Source class `VocabObject`: holds the stripped original and translation
strings; equality and hashing are by the pair of both fields. -/
structure VocabObject where
  original : String
  translation : String
deriving DecidableEq, Repr

/-- The transcript object returned by the external subtitle-retrieval
collaborator: the text of each snippet, plus the language code of the
transcript actually returned (the collaborator may perform language fallback,
in which case it differs from the requested code). -/
structure FetchedTranscript where
  entries : List String
  language_code : String
deriving DecidableEq, Repr

/-- Source `download_subtitles`: on a successful fetch, strips each entry,
drops falsy (empty) lines, and returns the lines together with `lang_code`,
the code that was requested; a fetch failure is re-raised. -/
def download_subtitles (fetchResult : Except String FetchedTranscript)
    (lang_code : String) : Except String (List String × String) :=
  match fetchResult with
  | .error e => .error e
  | .ok transcript =>
      .ok ((transcript.entries.map pyStrip).filter (fun l => l ≠ ""), lang_code)

/-- One JSON object in the completion response, restricted to the three keys
the extractor reads via `dict.get`; `none` covers both an absent key and an
explicit JSON null. -/
structure VocabJson where
  original : Option String := none
  word : Option String := none
  translation : Option String := none
deriving DecidableEq, Repr

/-- The value found under the `vocabulary` or `words` key: either a list of
objects, or some other JSON value (whose iteration raises and empties the
line). -/
inductive JListVal where
  | objs : List VocabJson → JListVal
  | malformed : JListVal
deriving DecidableEq, Repr

/-- The successfully parsed completion JSON, as far as the extractor
inspects it: a top-level list of objects, an object with optional
`vocabulary` and `words` keys, or any other JSON value. -/
inductive Parsed where
  | list : List VocabJson → Parsed
  | obj : Option JListVal → Option JListVal → Parsed
  | other : Parsed
deriving DecidableEq, Repr

/-- Outcome of one completion call as seen by `extract_vocab_from_line`:
the call failed, the body was not valid JSON, or it parsed to `Parsed`. -/
inductive CompletionResult where
  | ok : Parsed → CompletionResult
  | invalidJson : CompletionResult
  | callFailed : CompletionResult
deriving DecidableEq, Repr

/-- Python truthiness of `dict.get` on a string field: present and non-empty. -/
def truthy (o : Option String) : Bool :=
  match o with
  | some s => s ≠ ""
  | none => false

/-- The filter `if obj.get('original') or obj.get('word')` of the three list
comprehensions in `extract_vocab_from_line`. -/
def acceptObj (o : VocabJson) : Bool :=
  truthy o.original || truthy o.word

/-- The expression `obj.get('original') or obj.get('word')`: the `original`
value when truthy, otherwise the `word` value. -/
def origOrWord (o : VocabJson) : Option String :=
  if truthy o.original then o.original else o.word

/-- Constructing `VocabObject(orig, translation)` from one accepted JSON
object: both fields are stripped; a missing (`None`) field raises
`AttributeError` inside `str.strip`, modelled as `none`. -/
def vocabObjectOf (o : VocabJson) : Option VocabObject :=
  match origOrWord o, o.translation with
  | some orig, some tr => some ⟨pyStrip orig, pyStrip tr⟩
  | _, _ => none

/-- One of the three list comprehensions
`[VocabObject(...) for obj in objs if obj.get('original') or obj.get('word')]`:
skips objects failing the filter, builds a `VocabObject` for each accepted
object, and fails as a whole (the raised exception discards every element)
if any accepted object raises during construction. -/
def extractObjs : List VocabJson → Option (List VocabObject)
  | [] => some []
  | o :: rest =>
      if acceptObj o then
        match vocabObjectOf o, extractObjs rest with
        | some v, some vs => some (v :: vs)
        | _, _ => none
      else extractObjs rest

/-- Source `extract_vocab_from_line`, as a function of the completion
outcome for the line: a failed call or invalid JSON yields `[]` (caught by
the `except` block); a parsed value is interpreted as (1) a top-level list,
else (2) the `vocabulary` key, else (3) the `words` key, else `[]`; a raised
exception inside a comprehension (missing translation, malformed key value)
is caught by the same `except` block and yields `[]`. -/
def extract_vocab_from_line (result : CompletionResult) : List VocabObject :=
  match result with
  | .callFailed => []
  | .invalidJson => []
  | .ok (.list objs) => (extractObjs objs).getD []
  | .ok (.obj (some (.objs objs)) _) => (extractObjs objs).getD []
  | .ok (.obj (some .malformed) _) => []
  | .ok (.obj none (some (.objs objs))) => (extractObjs objs).getD []
  | .ok (.obj none (some .malformed)) => []
  | .ok (.obj none none) => []
  | .ok .other => []

/-- Source `convert_to_vocab_entry`: create the translation (skipped for a
falsy translation text), then create the vocab entry with
`considered_word=True`, `priority=1`, and `translations=[translation_id] if
translation_id else None`. -/
def convert_to_vocab_entry (vocab_obj : VocabObject) (target_lang_code : String)
    (s : St) : String × St :=
  let (tid, s1) := create_translation vocab_obj.translation none s
  create_vocab target_lang_code vocab_obj.original none none (some true) none
    (match tid with | some t => some [t] | none => none) (some 1) s1

/-- The key of the per-video `unique_vocab` dict:
`(vocab_obj.original, vocab_obj.translation)`. -/
def vocabKey (v : VocabObject) : String × String :=
  (v.original, v.translation)

/-- The per-video aggregation loop of `process_video`: an insertion-ordered
map keyed by `vocabKey`, keeping the first occurrence of each key. -/
def dedupStep (unique : List VocabObject) (v : VocabObject) : List VocabObject :=
  if vocabKey v ∈ unique.map vocabKey then unique else unique ++ [v]

def dedupVocab (all_vocab : List VocabObject) : List VocabObject :=
  all_vocab.foldl dedupStep []

/-- The list comprehension
`[convert_to_vocab_entry(v, target) for v in unique_vocab.values()]`,
threading the state left to right and collecting the returned vocab ids. -/
def convertAll (vs : List VocabObject) (target_lang_code : String) (s : St) :
    List String × St :=
  match vs with
  | [] => ([], s)
  | v :: rest =>
      let (i, s1) := convert_to_vocab_entry v target_lang_code s
      let (is, s2) := convertAll rest target_lang_code s1
      (i :: is, s2)

/-- Source `process_video`: download subtitles (a failure propagates),
extract vocab per line with the returned language code, flatten, dedup,
convert every unique pair, create the provenance note, create the resource,
and return its id.  The completion collaborator enters as the oracle
`oracle line lang`. -/
def process_video (video_id target_lang_code subtitle_lang_code : String)
    (fetchResult : Except String FetchedTranscript)
    (oracle : String → String → CompletionResult)
    (s : St) : Except String (String × St) :=
  match download_subtitles fetchResult subtitle_lang_code with
  | .error e => .error e
  | .ok (lines, subtitle_lang_code_actual) =>
      let all_vocab :=
        (lines.map (fun line =>
          extract_vocab_from_line (oracle line subtitle_lang_code_actual))).flatten
      let unique_vocab := dedupVocab all_vocab
      let (needed_vocab_ids, s1) := convertAll unique_vocab target_lang_code s
      let (nid, s2) := create_note
        ("YouTube Video ID: " ++ video_id ++ "\nSubtitle language: " ++ subtitle_lang_code_actual)
        none none s1
      let (rid, s3) := create_resource target_lang_code
        ("YouTube Video - " ++ video_id)
        (some ("Watch this video: https://www.youtube.com/watch?v=" ++ video_id))
        (some 1) none
        (if needed_vocab_ids = [] then none else some needed_vocab_ids)
        (match nid with | some n => some [n] | none => none)
        none s2
      .ok (rid, s3)

/-- Source constant `RETURN_AFTER_TWO_VIDEOS` (the development-time debug
limit); the loop below takes the flag as a parameter and the source fixes it
to this value. -/
def RETURN_AFTER_TWO_VIDEOS : Bool := true

/-- The `for idx, video_id in enumerate(video_ids)` loop of `main`, with the
per-video `try/except/continue` and the debug break `if debug and idx >= 1`
placed after a successful iteration (a `continue` skips it).  Returns the
final state, the number of loop iterations run, and the number of successful
iterations. -/
def mainLoopAux (debug : Bool) (target_lang_code subtitle_lang_code : String)
    (fetchOf : String → Except String FetchedTranscript)
    (oracleOf : String → String → String → CompletionResult) :
    Nat → List String → St → St × Nat × Nat
  | _, [], s => (s, 0, 0)
  | idx, video_id :: rest, s =>
      match process_video video_id target_lang_code subtitle_lang_code
          (fetchOf video_id) (oracleOf video_id) s with
      | .error _ =>
          let (s', n, k) :=
            mainLoopAux debug target_lang_code subtitle_lang_code fetchOf oracleOf
              (idx + 1) rest s
          (s', n + 1, k)
      | .ok (_, s1) =>
          if debug = true ∧ 1 ≤ idx then (s1, 1, 1)
          else
            let (s', n, k) :=
              mainLoopAux debug target_lang_code subtitle_lang_code fetchOf oracleOf
                (idx + 1) rest s1
            (s', n + 1, k + 1)

/-- Source `get_openai_client`: raises when the environment variable is
absent or falsy (empty). -/
def get_openai_client (api_key : Option String) : Except String Unit :=
  match api_key with
  | none => .error "OPENAI_API_KEY environment variable is required"
  | some k => if k = "" then .error "OPENAI_API_KEY environment variable is required" else .ok ()

/-- Source `main`: read the video list (trimmed non-empty lines), build the
client, run the video loop, write output, and return the exit code.  File
reading, credential lookup and the writing step are collaborator oracles;
any raised error is caught by the top-level `except` and yields 1. -/
def pyMain (debug : Bool) (target_lang_code subtitle_lang_code : String)
    (fileContent : Except String (List String))
    (api_key : Option String)
    (fetchOf : String → Except String FetchedTranscript)
    (oracleOf : String → String → String → CompletionResult)
    (writeOk : Bool) : Nat × St :=
  match fileContent with
  | .error _ => (1, initSt)
  | .ok raw =>
      let video_ids := (raw.map pyStrip).filter (fun l => l ≠ "")
      match get_openai_client api_key with
      | .error _ => (1, initSt)
      | .ok _ =>
          let (s, _, _) :=
            mainLoopAux debug target_lang_code subtitle_lang_code fetchOf oracleOf
              0 video_ids initSt
          if writeOk then (0, s) else (1, s)

/-- Python `stem.split(sep)` for a one-character separator: splits on every
occurrence, keeping empty components; the empty string gives one empty
component. -/
def pySplit (sep : Char) : List Char → List (List Char)
  | [] => [[]]
  | c :: rest =>
      match pySplit sep rest with
      | [] => [[]]
      | h :: t => if c = sep then [] :: h :: t else (c :: h) :: t

/-- The module-level parse
`TARGET_LANG_CODE, VIDEO_SUBTITLE_LANGUAGE = filename.split("_")`:
succeeds exactly when the split has two components, otherwise the
`ValueError` is caught and the process exits with status 1. -/
def parseLangCodes (stem : String) : Option (String × String) :=
  match pySplit '_' stem.data with
  | [a, b] => some (String.mk a, String.mk b)
  | _ => none

/-- The whole program: parse the language codes from the input file's stem
(exiting 1 on failure, before any video is processed), then run `main`.
Returns the process exit code and the final state. -/
def program (stem : String) (debug : Bool)
    (fileContent : Except String (List String))
    (api_key : Option String)
    (fetchOf : String → Except String FetchedTranscript)
    (oracleOf : String → String → String → CompletionResult)
    (writeOk : Bool) : Nat × St :=
  match parseLangCodes stem with
  | none => (1, initSt)
  | some (target, subtitle) =>
      pyMain debug target subtitle fileContent api_key fetchOf oracleOf writeOk

/-- The pair an accepted JSON object turns into: stripped preferred original
and stripped translation. -/
def expectedPair (o : VocabJson) : VocabObject :=
  ⟨pyStrip ((origOrWord o).getD ""), pyStrip ((o.translation).getD "")⟩

/-- The vocab entry produced for a pair with no translation reference:
`considered_word=True`, `priority=1`, every other optional field (the
`translations` list included) omitted. -/
def vocabEntryNoTr (vid target original : String) : Vocab :=
  { id := vid, language := target, content := original,
    consideredWord := some true, priority := some 1, translations := none }

/-- Default transcript-fetch oracle for concrete runs: every video is
unavailable. -/
def fetchNone : String → Except String FetchedTranscript :=
  fun _ => .error "TranscriptUnavailable"

/-- Default completion oracle for concrete runs: every call fails. -/
def oracleNone : String → String → String → CompletionResult :=
  fun _ _ _ => .callFailed

/-- The vocab entry produced for a pair with a non-empty translation:
as `vocabEntryNoTr` but referencing the single created translation id. -/
def vocabEntryTr (vid target original tid : String) : Vocab :=
  { id := vid, language := target, content := original,
    consideredWord := some true, priority := some 1, translations := some [tid] }

/-- The flattened list of every `VocabObject` the extractor produces across
all subtitle lines of one video (`all_vocab` in `process_video`). -/
def videoAllVocab (t : FetchedTranscript) (lang : String)
    (oracle : String → String → CompletionResult) : List VocabObject :=
  (((t.entries.map pyStrip).filter (fun l => l ≠ "")).map
    (fun line => extract_vocab_from_line (oracle line lang))).flatten

/-- The id sequence the spec requires for a kind with `n` entries: the
decimal strings of 1..n in order. -/
def idSeq (n : Nat) : List String :=
  (List.range n).map (fun i => toString (i + 1))

/-- Invariant tying each accumulator's ids to its length and counter: the
counter equals the number of entries of its kind, and the entries' ids are
exactly the decimal strings of consecutive integers from 1. -/
def idInv (s : St) : Prop :=
  s.resource_id = s.resource_data.length ∧
  s.vocab_id = s.vocab_data.length ∧
  s.translation_id = s.translation_data.length ∧
  s.note_id = s.note_data.length ∧
  s.resource_data.map Resource.id = idSeq s.resource_data.length ∧
  s.vocab_data.map Vocab.id = idSeq s.vocab_data.length ∧
  s.translation_data.map Translation.id = idSeq s.translation_data.length ∧
  s.note_data.map Note.id = idSeq s.note_data.length

/-- Referential integrity of the accumulators: every vocab id referenced by
a resource's `vocab` list names an entry of the vocab accumulator, and every
translation id referenced by a vocab's `translations` list names an entry of
the translation accumulator. -/
def refIntegrity (s : St) : Prop :=
  (∀ r ∈ s.resource_data, ∀ i ∈ r.vocab.getD [], ∃ e ∈ s.vocab_data, e.id = i) ∧
  (∀ w ∈ s.vocab_data, ∀ i ∈ w.translations.getD [],
    ∃ e ∈ s.translation_data, e.id = i)

/-- Number of loop iterations a run of the debug-limited loop performs once
every further index is at least 1: failures pass through (their `continue`
skips the break check), the first successful video stops the loop. -/
def stopSpec (fetchOf : String → Except String FetchedTranscript) :
    List String → Nat
  | [] => 0
  | v :: rest =>
      match fetchOf v with
      | .ok _ => 1
      | .error _ => 1 + stopSpec fetchOf rest

lemma accept_origOrWord {o : VocabJson} (h : acceptObj o = true) :
    ∃ a, origOrWord o = some a := by
  unfold origOrWord
  by_cases h1 : truthy o.original = true
  · rw [if_pos h1]
    cases ho : o.original with
    | none => rw [ho] at h1; simp [truthy] at h1
    | some a => exact ⟨a, rfl⟩
  · rw [if_neg h1]
    have h2 : truthy o.word = true := by
      unfold acceptObj at h
      rcases Bool.or_eq_true_iff.1 h with hx | hx
      · exact absurd hx h1
      · exact hx
    cases hw : o.word with
    | none => rw [hw] at h2; simp [truthy] at h2
    | some a => exact ⟨a, rfl⟩

lemma extractObjs_all_present (objs : List VocabJson)
    (h : ∀ o ∈ objs, acceptObj o = true → (o.translation).isSome) :
    extractObjs objs = some ((objs.filter acceptObj).map expectedPair) := by
  induction objs with
  | nil => rfl
  | cons o rest ih =>
      have hrest : ∀ o' ∈ rest, acceptObj o' = true → (o'.translation).isSome :=
        fun o' ho' => h o' (List.mem_cons_of_mem _ ho')
      by_cases ha : acceptObj o = true
      · obtain ⟨a, hor⟩ := accept_origOrWord ha
        obtain ⟨tr, htr⟩ := Option.isSome_iff_exists.1 (h o (List.mem_cons_self _ _) ha)
        have hv : vocabObjectOf o = some (expectedPair o) := by
          unfold vocabObjectOf expectedPair
          rw [hor, htr]
          simp
        rw [extractObjs, if_pos ha, ih hrest, hv, List.filter_cons_of_pos ha]
        simp
      · rw [extractObjs, if_neg ha, ih hrest,
          List.filter_cons_of_neg (by simpa using ha)]

lemma extractObjs_missing (objs : List VocabJson)
    (o : VocabJson) (ho : o ∈ objs) (ha : acceptObj o = true)
    (htr : o.translation = none) : extractObjs objs = none := by
  induction objs with
  | nil => cases ho
  | cons p rest ih =>
      rcases List.mem_cons.1 ho with h1 | h2
      · subst h1
        have hnone : vocabObjectOf o = none := by
          unfold vocabObjectOf
          rw [htr]
          cases origOrWord o <;> rfl
        rw [extractObjs, if_pos ha, hnone]
      · by_cases hp : acceptObj p = true
        · rw [extractObjs, if_pos hp, ih h2]
          cases vocabObjectOf p <;> rfl
        · rw [extractObjs, if_neg hp]
          exact ih h2

/-- C3: the extractor interprets the parsed completion JSON under three
shapes in order (top-level list, `vocabulary` key, `words` key), accepting
each object with a truthy `original` or truthy `word` field (preferring
`original`) whose `translation` field is present, silently dropping objects
missing both original-like fields; when no shape matches, the JSON is
invalid, or the call failed, it returns the empty list and never raises. -/
theorem c3_extractor_shapes (objs : List VocabJson) (w : Option JListVal)
    (h : ∀ o ∈ objs, acceptObj o = true → (o.translation).isSome) :
    extract_vocab_from_line (.ok (.list objs))
        = (objs.filter acceptObj).map expectedPair ∧
    extract_vocab_from_line (.ok (.obj (some (.objs objs)) w))
        = (objs.filter acceptObj).map expectedPair ∧
    extract_vocab_from_line (.ok (.obj none (some (.objs objs))))
        = (objs.filter acceptObj).map expectedPair ∧
    extract_vocab_from_line (.ok (.obj none none)) = [] ∧
    extract_vocab_from_line (.ok .other) = [] ∧
    extract_vocab_from_line .invalidJson = [] ∧
    extract_vocab_from_line .callFailed = [] := by
  have he := extractObjs_all_present objs h
  exact ⟨by simp [extract_vocab_from_line, he], by simp [extract_vocab_from_line, he],
    by simp [extract_vocab_from_line, he], rfl, rfl, rfl, rfl⟩

theorem c3_witness :
    extract_vocab_from_line (.ok (.list
      [{ original := some "hola", translation := some " hello " },
       { translation := some "x" },
       { original := some "", word := some "b", translation := some "c" }]))
      = [⟨"hola", "hello"⟩, ⟨"b", "c"⟩] :=
  ((c3_extractor_shapes
      [{ original := some "hola", translation := some " hello " },
       { translation := some "x" },
       { original := some "", word := some "b", translation := some "c" }]
      none (by decide)).1).trans (by decide)

/-- C10: a completion response containing, among the accepted objects, one
with a truthy original-like field but no `translation` value raises during
pair construction, so the extractor returns the empty list for the whole
line, discarding every pair including valid ones. -/
theorem c10_missing_translation_empties_line (objs : List VocabJson)
    (w : Option JListVal) (o : VocabJson) (ho : o ∈ objs)
    (ha : acceptObj o = true) (htr : o.translation = none) :
    extract_vocab_from_line (.ok (.list objs)) = [] ∧
    extract_vocab_from_line (.ok (.obj (some (.objs objs)) w)) = [] ∧
    extract_vocab_from_line (.ok (.obj none (some (.objs objs)))) = [] := by
  have he := extractObjs_missing objs o ho ha htr
  exact ⟨by simp [extract_vocab_from_line, he], by simp [extract_vocab_from_line, he],
    by simp [extract_vocab_from_line, he]⟩

theorem c10_witness :
    extract_vocab_from_line (.ok (.list
      [{ original := some "good", translation := some "g" },
       { original := some "bad" }])) = [] :=
  (c10_missing_translation_empties_line
    [{ original := some "good", translation := some "g" },
     { original := some "bad" }]
    none { original := some "bad" } (by decide) (by decide) rfl).1

/-- C5: for a pair whose translation text is empty, `create_translation`
returns no id and leaves the translation accumulator untouched, while a
vocab entry is still appended with the `translations` field omitted. -/
theorem c5_empty_translation (v : VocabObject) (target : String) (s : St)
    (h : v.translation = "") :
    (create_translation v.translation none s).1 = none ∧
    (convert_to_vocab_entry v target s).2.translation_data = s.translation_data ∧
    (convert_to_vocab_entry v target s).2.vocab_data =
      s.vocab_data ++ [vocabEntryNoTr (toString (s.vocab_id + 1)) target v.original] := by
  refine ⟨?_, ?_, ?_⟩ <;>
    simp [convert_to_vocab_entry, create_translation, create_vocab,
      get_next_vocab_id, truthyList, vocabEntryNoTr, h]

theorem c5_witness :
    (create_translation (VocabObject.mk "hola" "").translation none initSt).1 = none ∧
    (convert_to_vocab_entry ⟨"hola", ""⟩ "es" initSt).2.translation_data
      = initSt.translation_data ∧
    (convert_to_vocab_entry ⟨"hola", ""⟩ "es" initSt).2.vocab_data =
      initSt.vocab_data ++ [vocabEntryNoTr (toString (initSt.vocab_id + 1)) "es" "hola"] :=
  c5_empty_translation ⟨"hola", ""⟩ "es" initSt rfl

lemma pySplit_ne_nil (sep : Char) (cs : List Char) : pySplit sep cs ≠ [] := by
  cases cs with
  | nil => simp [pySplit]
  | cons c rest =>
      simp only [pySplit]
      rcases pySplit sep rest with _ | ⟨hd, tl⟩
      · simp
      · by_cases hc : c = sep <;> simp [hc]

lemma pySplit_length (sep : Char) (cs : List Char) :
    (pySplit sep cs).length = cs.count sep + 1 := by
  induction cs with
  | nil => simp [pySplit]
  | cons c rest ih =>
      rcases h : pySplit sep rest with _ | ⟨hd, tl⟩
      · exact absurd h (pySplit_ne_nil sep rest)
      · rw [h] at ih
        simp only [List.length_cons] at ih
        by_cases hc : c = sep
        · subst hc
          simp [pySplit, h, List.count_cons]
          omega
        · simp [pySplit, h, hc, List.count_cons]
          omega

lemma pySplit_count_zero (sep : Char) (cs : List Char) (h : cs.count sep = 0) :
    pySplit sep cs = [cs] := by
  induction cs with
  | nil => rfl
  | cons c rest ih =>
      have hc : ¬ c = sep := by
        intro hceq
        subst hceq
        simp [List.count_cons] at h
      have hrest : rest.count sep = 0 := by
        simp [List.count_cons, hc] at h
        exact h
      simp only [pySplit, ih hrest]
      rw [if_neg hc]

lemma pySplit_count_one (sep : Char) (cs : List Char) (h : cs.count sep = 1) :
    pySplit sep cs = [cs.takeWhile (fun x => x != sep),
      (cs.dropWhile (fun x => x != sep)).drop 1] := by
  induction cs with
  | nil => simp at h
  | cons c rest ih =>
      by_cases hc : c = sep
      · subst hc
        have hrest : rest.count c = 0 := by
          simp [List.count_cons] at h
          exact h
        simp only [pySplit, pySplit_count_zero c rest hrest]
        simp [List.takeWhile, List.dropWhile]
      · have hrest : rest.count sep = 1 := by
          simp [List.count_cons, hc] at h
          exact h
        simp only [pySplit, ih hrest]
        rw [if_neg hc]
        have hbne : (c != sep) = true := by simp [hc]
        simp [List.takeWhile, List.dropWhile, hbne]

lemma parseLang_one (stem : String) (h : stem.data.count '_' = 1) :
    parseLangCodes stem = some (String.mk (stem.data.takeWhile (fun x => x != '_')),
      String.mk ((stem.data.dropWhile (fun x => x != '_')).drop 1)) := by
  unfold parseLangCodes
  rw [pySplit_count_one '_' stem.data h]

lemma parseLang_not_one (stem : String) (h : stem.data.count '_' ≠ 1) :
    parseLangCodes stem = none := by
  unfold parseLangCodes
  have hl := pySplit_length '_' stem.data
  rcases hsp : pySplit '_' stem.data with _ | ⟨a, tl⟩
  · exact absurd hsp (pySplit_ne_nil '_' _)
  · rcases tl with _ | ⟨b, tl2⟩
    · rfl
    · rcases tl2 with _ | ⟨c, tl3⟩
      · rw [hsp] at hl
        simp at hl
        omega
      · rfl

/-- C4: when the file stem contains exactly one underscore, the derived
language-code pair is the two components around it; with zero or two-plus
underscores the parse fails and the process exits with status 1 before
processing any video (final state is the untouched initial state). -/
theorem c4_filename_parsing (stem : String) (debug : Bool)
    (fileContent : Except String (List String)) (api_key : Option String)
    (fetchOf : String → Except String FetchedTranscript)
    (oracleOf : String → String → String → CompletionResult) (writeOk : Bool) :
    (stem.data.count '_' = 1 →
      parseLangCodes stem = some (String.mk (stem.data.takeWhile (fun x => x != '_')),
        String.mk ((stem.data.dropWhile (fun x => x != '_')).drop 1))) ∧
    (stem.data.count '_' ≠ 1 →
      parseLangCodes stem = none ∧
      program stem debug fileContent api_key fetchOf oracleOf writeOk = (1, initSt)) := by
  constructor
  · exact parseLang_one stem
  · intro h
    have hp := parseLang_not_one stem h
    refine ⟨hp, ?_⟩
    unfold program
    rw [hp]

theorem c4_witness :
    parseLangCodes "apc_ar" = some (String.mk ("apc_ar".data.takeWhile (fun x => x != '_')),
      String.mk (("apc_ar".data.dropWhile (fun x => x != '_')).drop 1)) ∧
    (parseLangCodes "apcar" = none ∧
      program "apcar" true (.ok []) none fetchNone oracleNone true = (1, initSt)) :=
  ⟨(c4_filename_parsing "apc_ar" true (.ok []) none fetchNone oracleNone true).1 (by decide),
   (c4_filename_parsing "apcar" true (.ok []) none fetchNone oracleNone true).2 (by decide)⟩

lemma convert_eq (v : VocabObject) (target : String) (s : St) :
    convert_to_vocab_entry v target s =
      if v.translation = "" then
        (toString (s.vocab_id + 1),
         { s with vocab_id := s.vocab_id + 1,
                  vocab_data := s.vocab_data ++
                    [vocabEntryNoTr (toString (s.vocab_id + 1)) target v.original] })
      else
        (toString (s.vocab_id + 1),
         { s with vocab_id := s.vocab_id + 1,
                  translation_id := s.translation_id + 1,
                  translation_data := s.translation_data ++
                    [{ id := toString (s.translation_id + 1), content := v.translation }],
                  vocab_data := s.vocab_data ++
                    [vocabEntryTr (toString (s.vocab_id + 1)) target v.original
                      (toString (s.translation_id + 1))] }) := by
  by_cases h : v.translation = "" <;>
    simp [convert_to_vocab_entry, create_translation, create_vocab,
      get_next_translation_id, get_next_vocab_id, truthyList,
      vocabEntryNoTr, vocabEntryTr, h]

lemma convert_ret (v : VocabObject) (target : String) (s : St) :
    (convert_to_vocab_entry v target s).1 = toString (s.vocab_id + 1) := by
  rw [convert_eq]
  by_cases h : v.translation = "" <;> simp [h]

lemma convert_note_data (v : VocabObject) (target : String) (s : St) :
    ((convert_to_vocab_entry v target s).2).note_data = s.note_data := by
  rw [convert_eq]
  by_cases h : v.translation = "" <;> simp [h]

lemma convert_resource_data (v : VocabObject) (target : String) (s : St) :
    ((convert_to_vocab_entry v target s).2).resource_data = s.resource_data := by
  rw [convert_eq]
  by_cases h : v.translation = "" <;> simp [h]

lemma convert_note_id (v : VocabObject) (target : String) (s : St) :
    ((convert_to_vocab_entry v target s).2).note_id = s.note_id := by
  rw [convert_eq]
  by_cases h : v.translation = "" <;> simp [h]

lemma convert_resource_id (v : VocabObject) (target : String) (s : St) :
    ((convert_to_vocab_entry v target s).2).resource_id = s.resource_id := by
  rw [convert_eq]
  by_cases h : v.translation = "" <;> simp [h]

lemma convert_vocab_id (v : VocabObject) (target : String) (s : St) :
    ((convert_to_vocab_entry v target s).2).vocab_id = s.vocab_id + 1 := by
  rw [convert_eq]
  by_cases h : v.translation = "" <;> simp [h]

lemma convert_vocab_map_content (v : VocabObject) (target : String) (s : St) :
    ((convert_to_vocab_entry v target s).2).vocab_data.map Vocab.content
      = s.vocab_data.map Vocab.content ++ [v.original] := by
  rw [convert_eq]
  by_cases h : v.translation = "" <;> simp [h, vocabEntryNoTr, vocabEntryTr]

lemma convert_vocab_map_id (v : VocabObject) (target : String) (s : St) :
    ((convert_to_vocab_entry v target s).2).vocab_data.map Vocab.id
      = s.vocab_data.map Vocab.id ++ [toString (s.vocab_id + 1)] := by
  rw [convert_eq]
  by_cases h : v.translation = "" <;> simp [h, vocabEntryNoTr, vocabEntryTr]

lemma convertAll_note_data (target : String) :
    ∀ (vs : List VocabObject) (s : St),
      ((convertAll vs target s).2).note_data = s.note_data := by
  intro vs
  induction vs with
  | nil => intro s; rfl
  | cons v rest ih =>
      intro s
      simp only [convertAll]
      rw [ih, convert_note_data]

lemma convertAll_resource_data (target : String) :
    ∀ (vs : List VocabObject) (s : St),
      ((convertAll vs target s).2).resource_data = s.resource_data := by
  intro vs
  induction vs with
  | nil => intro s; rfl
  | cons v rest ih =>
      intro s
      simp only [convertAll]
      rw [ih, convert_resource_data]

lemma convertAll_note_id (target : String) :
    ∀ (vs : List VocabObject) (s : St),
      ((convertAll vs target s).2).note_id = s.note_id := by
  intro vs
  induction vs with
  | nil => intro s; rfl
  | cons v rest ih =>
      intro s
      simp only [convertAll]
      rw [ih, convert_note_id]

lemma convertAll_resource_id (target : String) :
    ∀ (vs : List VocabObject) (s : St),
      ((convertAll vs target s).2).resource_id = s.resource_id := by
  intro vs
  induction vs with
  | nil => intro s; rfl
  | cons v rest ih =>
      intro s
      simp only [convertAll]
      rw [ih, convert_resource_id]

lemma convertAll_vocab_map_content (target : String) :
    ∀ (vs : List VocabObject) (s : St),
      ((convertAll vs target s).2).vocab_data.map Vocab.content
        = s.vocab_data.map Vocab.content ++ vs.map VocabObject.original := by
  intro vs
  induction vs with
  | nil => intro s; simp [convertAll]
  | cons v rest ih =>
      intro s
      simp only [convertAll]
      rw [ih, convert_vocab_map_content]
      simp

lemma convertAll_vocab_len (target : String) (vs : List VocabObject) (s : St) :
    ((convertAll vs target s).2).vocab_data.length
      = s.vocab_data.length + vs.length := by
  have h1 := congrArg List.length (convertAll_vocab_map_content target vs s)
  simpa using h1

/-- The provenance note content synthesized in `process_video` is never the
empty string, so `create_note` always creates the note. -/
lemma videoNote_ne_empty (vid lang : String) :
    "YouTube Video ID: " ++ vid ++ "\nSubtitle language: " ++ lang ≠ "" := by
  intro h
  have h2 := congrArg String.data h
  simp only [String.data_append, List.append_eq_nil] at h2
  exact absurd h2.1.1.1 (by decide)

lemma create_note_nonempty (content : String) (nt : Option String)
    (sbe : Option Bool) (s : St) (h : content ≠ "") :
    create_note content nt sbe s = (some (toString (s.note_id + 1)),
      { s with note_id := s.note_id + 1,
               note_data := s.note_data ++
                 [{ id := toString (s.note_id + 1), content := content,
                    noteType := truthyStr nt, showBeforeExercice := sbe }] }) := by
  simp [create_note, get_next_note_id, h]

lemma create_resource_note_data (language title : String) (content : Option String)
    (priority : Option Int) (link : Option String)
    (vocab notes fact_cards : Option (List String)) (s : St) :
    ((create_resource language title content priority link vocab notes
      fact_cards s).2).note_data = s.note_data := rfl

lemma process_video_note_contents (vid target sub : String)
    (t : FetchedTranscript) (oracle : String → String → CompletionResult) (s : St) :
    (process_video vid target sub (.ok t) oracle s).map
        (fun p => p.2.note_data.map Note.content)
      = .ok (s.note_data.map Note.content
          ++ ["YouTube Video ID: " ++ vid ++ "\nSubtitle language: " ++ sub]) := by
  simp [process_video, download_subtitles, create_note, get_next_note_id,
    videoNote_ne_empty vid sub, create_resource_note_data, convertAll_note_data,
    Except.map]

/-- C6 counterexample: a fetched transcript whose own language code `en`
differs from the requested code `ar` (a collaborator fallback) is returned
by `download_subtitles` with the requested code `ar`, and the provenance
note records `ar`, not the actually returned `en`. -/
theorem c6_counterexample :
    download_subtitles (.ok ⟨["hi"], "en"⟩) "ar" = .ok (["hi"], "ar") ∧
    (process_video "v" "es" "ar" (.ok ⟨["hi"], "en"⟩) (fun _ _ => .callFailed)
        initSt).map (fun p => p.2.note_data.map Note.content)
      = .ok ["YouTube Video ID: v\nSubtitle language: ar"] ∧
    ("YouTube Video ID: v\nSubtitle language: ar" : String)
      ≠ "YouTube Video ID: v\nSubtitle language: en" :=
  ⟨rfl, rfl, by decide⟩

/-- C6 amended: `download_subtitles` always returns the requested language
code, discarding the fetched transcript's `language_code`; `process_video`
propagates that second component — the requested code — to the per-line
extraction oracle and records it in the provenance Note content. -/
theorem c6_amended (vid target requested : String) (t : FetchedTranscript)
    (oracle : String → String → CompletionResult) (s : St) :
    download_subtitles (.ok t) requested
      = .ok ((t.entries.map pyStrip).filter (fun l => l ≠ ""), requested) ∧
    process_video vid target requested (.ok t) oracle s
      = process_video vid target requested (.ok t)
          (fun line _ => oracle line requested) s ∧
    (process_video vid target requested (.ok t) oracle s).map
        (fun p => p.2.note_data.map Note.content)
      = .ok (s.note_data.map Note.content
          ++ ["YouTube Video ID: " ++ vid ++ "\nSubtitle language: " ++ requested]) :=
  ⟨rfl, rfl, process_video_note_contents vid target requested t oracle s⟩

lemma dedupFold_aux (all : List VocabObject) :
    ∀ acc : List VocabObject, (acc.map vocabKey).Nodup →
      ((all.foldl dedupStep acc).map vocabKey).Nodup ∧
      ((all.foldl dedupStep acc).map vocabKey).toFinset
        = (acc.map vocabKey).toFinset ∪ (all.map vocabKey).toFinset := by
  induction all with
  | nil => intro acc h; exact ⟨h, by simp⟩
  | cons v vs ih =>
      intro acc h
      simp only [List.foldl_cons]
      by_cases hm : vocabKey v ∈ acc.map vocabKey
      · rw [show dedupStep acc v = acc from if_pos hm]
        obtain ⟨hnd, hset⟩ := ih acc h
        refine ⟨hnd, ?_⟩
        rw [hset]
        ext x
        simp only [Finset.mem_union, List.mem_toFinset, List.map_cons,
          List.toFinset_cons, Finset.mem_insert]
        constructor
        · rintro (h1 | h2)
          · exact Or.inl h1
          · exact Or.inr (Or.inr h2)
        · rintro (h1 | h2 | h3)
          · exact Or.inl h1
          · rw [h2]; exact Or.inl hm
          · exact Or.inr h3
      · rw [show dedupStep acc v = acc ++ [v] from if_neg hm]
        have hacc' : ((acc ++ [v]).map vocabKey).Nodup := by
          simp only [List.map_append, List.map_cons, List.map_nil]
          rw [List.nodup_append]
          refine ⟨h, List.nodup_singleton _, ?_⟩
          intro a ha hb
          simp only [List.mem_singleton] at hb
          subst hb
          exact hm ha
        obtain ⟨hnd, hset⟩ := ih (acc ++ [v]) hacc'
        refine ⟨hnd, ?_⟩
        rw [hset]
        ext x
        simp only [Finset.mem_union, List.mem_toFinset, List.map_cons,
          List.toFinset_cons, Finset.mem_insert, List.map_append, List.map_nil,
          List.toFinset_append, List.mem_append, List.mem_singleton,
          List.toFinset_nil, Finset.mem_insert]
        tauto

lemma dedupVocab_card (all : List VocabObject) :
    (dedupVocab all).length = ((all.map vocabKey).toFinset).card := by
  obtain ⟨hnd, hset⟩ := dedupFold_aux all [] (by simp)
  unfold dedupVocab
  rw [show (List.foldl dedupStep [] all).length
        = ((List.foldl dedupStep [] all).map vocabKey).length by simp,
     ← List.toFinset_card_of_nodup hnd, hset]
  simp

lemma create_note_vocab_data (content : String) (nt : Option String)
    (sbe : Option Bool) (s : St) :
    ((create_note content nt sbe s).2).vocab_data = s.vocab_data := by
  unfold create_note get_next_note_id
  split <;> rfl

lemma create_resource_vocab_data (language title : String) (content : Option String)
    (priority : Option Int) (link : Option String)
    (vocab notes fact_cards : Option (List String)) (s : St) :
    ((create_resource language title content priority link vocab notes
      fact_cards s).2).vocab_data = s.vocab_data := rfl

/-- C1: for one processed video, starting from any accumulator state, the
number of vocab entries added equals the number of distinct
(original, translation) pairs among all pairs extracted from the video's
lines (both components stripped at construction), and the added entries'
contents are the originals of the distinct pairs in first-occurrence order;
holding for every starting state, the count never shrinks by deduplication
against pairs recorded for earlier videos. -/
theorem c1_per_video_vocab_count (vid target sub : String)
    (t : FetchedTranscript) (oracle : String → String → CompletionResult)
    (s : St) :
    (process_video vid target sub (.ok t) oracle s).map
        (fun p => p.2.vocab_data.length)
      = .ok (s.vocab_data.length
          + (((videoAllVocab t sub oracle).map vocabKey).toFinset).card) ∧
    (process_video vid target sub (.ok t) oracle s).map
        (fun p => p.2.vocab_data.map Vocab.content)
      = .ok (s.vocab_data.map Vocab.content
          ++ (dedupVocab (videoAllVocab t sub oracle)).map VocabObject.original) := by
  constructor <;>
    simp [process_video, download_subtitles, Except.map, videoAllVocab,
      create_resource_vocab_data, create_note_vocab_data,
      convertAll_vocab_len, convertAll_vocab_map_content, dedupVocab_card]

lemma idSeq_succ (n : Nat) : idSeq (n + 1) = idSeq n ++ [toString (n + 1)] := by
  unfold idSeq
  rw [List.range_succ]
  simp

lemma idInv_create_resource (language title : String) (content : Option String)
    (priority : Option Int) (link : Option String)
    (vocab notes fact_cards : Option (List String)) (s : St) (h : idInv s) :
    idInv ((create_resource language title content priority link vocab notes
      fact_cards s).2) := by
  obtain ⟨h1, h2, h3, h4, h5, h6, h7, h8⟩ := h
  unfold create_resource get_next_resource_id
  refine ⟨?_, h2, h3, h4, ?_, h6, h7, h8⟩ <;> simp [h1, h5, idSeq_succ]

lemma idInv_create_vocab (language content : String)
    (cc cs cw : Option Bool) (notes translations : Option (List String))
    (priority : Option Int) (s : St) (h : idInv s) :
    idInv ((create_vocab language content cc cs cw notes translations
      priority s).2) := by
  obtain ⟨h1, h2, h3, h4, h5, h6, h7, h8⟩ := h
  unfold create_vocab get_next_vocab_id
  refine ⟨h1, ?_, h3, h4, h5, ?_, h7, h8⟩ <;> simp [h2, h6, idSeq_succ]

lemma idInv_create_translation (content : String) (notes : Option (List String))
    (s : St) (h : idInv s) : idInv ((create_translation content notes s).2) := by
  obtain ⟨h1, h2, h3, h4, h5, h6, h7, h8⟩ := h
  unfold create_translation get_next_translation_id
  split
  · exact ⟨h1, h2, h3, h4, h5, h6, h7, h8⟩
  · refine ⟨h1, h2, ?_, h4, h5, h6, ?_, h8⟩ <;> simp [h3, h7, idSeq_succ]

lemma idInv_create_note (content : String) (nt : Option String)
    (sbe : Option Bool) (s : St) (h : idInv s) :
    idInv ((create_note content nt sbe s).2) := by
  obtain ⟨h1, h2, h3, h4, h5, h6, h7, h8⟩ := h
  unfold create_note get_next_note_id
  split
  · exact ⟨h1, h2, h3, h4, h5, h6, h7, h8⟩
  · refine ⟨h1, h2, h3, ?_, h5, h6, h7, ?_⟩ <;> simp [h4, h8, idSeq_succ]

lemma idInv_convert (v : VocabObject) (target : String) (s : St) (h : idInv s) :
    idInv ((convert_to_vocab_entry v target s).2) := by
  unfold convert_to_vocab_entry
  exact idInv_create_vocab _ _ _ _ _ _ _ _ _
    (idInv_create_translation _ _ _ h)

lemma idInv_convertAll (target : String) :
    ∀ (vs : List VocabObject) (s : St), idInv s →
      idInv ((convertAll vs target s).2) := by
  intro vs
  induction vs with
  | nil => intro s h; exact h
  | cons v rest ih =>
      intro s h
      simp only [convertAll]
      exact ih _ (idInv_convert v target s h)

lemma idInv_process_video (vid target sub : String)
    (fetch : Except String FetchedTranscript)
    (oracle : String → String → CompletionResult) (s : St)
    (p : String × St) (hp : process_video vid target sub fetch oracle s = .ok p)
    (h : idInv s) : idInv p.2 := by
  rcases fetch with e | t
  · simp [process_video, download_subtitles] at hp
  · simp only [process_video, download_subtitles] at hp
    rw [Except.ok.injEq] at hp
    rw [← hp]
    exact idInv_create_resource _ _ _ _ _ _ _ _ _
      (idInv_create_note _ _ _ _ (idInv_convertAll _ _ _ h))

lemma idInv_mainLoopAux (debug : Bool) (target subtitle : String)
    (fetchOf : String → Except String FetchedTranscript)
    (oracleOf : String → String → String → CompletionResult) :
    ∀ (ids : List String) (idx : Nat) (s : St), idInv s →
      idInv ((mainLoopAux debug target subtitle fetchOf oracleOf idx ids s).1) := by
  intro ids
  induction ids with
  | nil => intro idx s h; exact h
  | cons vid rest ih =>
      intro idx s h
      simp only [mainLoopAux]
      cases hp : process_video vid target subtitle (fetchOf vid) (oracleOf vid) s with
      | error e => exact ih (idx + 1) s h
      | ok p =>
          obtain ⟨rid, s1⟩ := p
          have h1 : idInv s1 := idInv_process_video _ _ _ _ _ _ _ hp h
          by_cases hb : debug = true ∧ 1 ≤ idx
          · simp only [if_pos hb]
            exact h1
          · simp only [if_neg hb]
            exact ih (idx + 1) s1 h1

lemma idInv_initSt : idInv initSt := by
  refine ⟨rfl, rfl, rfl, rfl, rfl, rfl, rfl, rfl⟩

/-- C2: at the end of any run (any debug-limit setting, any video list, any
collaborator behaviour), the ids of each of the four entity kinds, in
creation order, are exactly the decimal strings of the consecutive integers
1..n for that kind's entry count: dense, 1-based, no gaps, no reuse. -/
theorem c2_dense_sequential_ids (debug : Bool) (target subtitle : String)
    (fetchOf : String → Except String FetchedTranscript)
    (oracleOf : String → String → String → CompletionResult)
    (ids : List String) :
    ((mainLoopAux debug target subtitle fetchOf oracleOf 0 ids initSt).1.resource_data.map
        Resource.id
      = idSeq (mainLoopAux debug target subtitle fetchOf oracleOf 0 ids
          initSt).1.resource_data.length) ∧
    ((mainLoopAux debug target subtitle fetchOf oracleOf 0 ids initSt).1.vocab_data.map
        Vocab.id
      = idSeq (mainLoopAux debug target subtitle fetchOf oracleOf 0 ids
          initSt).1.vocab_data.length) ∧
    ((mainLoopAux debug target subtitle fetchOf oracleOf 0 ids initSt).1.translation_data.map
        Translation.id
      = idSeq (mainLoopAux debug target subtitle fetchOf oracleOf 0 ids
          initSt).1.translation_data.length) ∧
    ((mainLoopAux debug target subtitle fetchOf oracleOf 0 ids initSt).1.note_data.map
        Note.id
      = idSeq (mainLoopAux debug target subtitle fetchOf oracleOf 0 ids
          initSt).1.note_data.length) := by
  obtain ⟨_, _, _, _, h5, h6, h7, h8⟩ :=
    idInv_mainLoopAux debug target subtitle fetchOf oracleOf ids 0 initSt idInv_initSt
  exact ⟨h5, h6, h7, h8⟩

lemma convert_vocab_mono (v : VocabObject) (target : String) (s : St) :
    ∀ e ∈ s.vocab_data, e ∈ ((convert_to_vocab_entry v target s).2).vocab_data := by
  intro e he
  rw [convert_eq]
  by_cases ht : v.translation = "" <;> simp only [if_pos, if_neg, ht] <;>
    exact List.mem_append_left _ he

lemma convertAll_vocab_mono (target : String) :
    ∀ (vs : List VocabObject) (s : St),
      ∀ e ∈ s.vocab_data, e ∈ ((convertAll vs target s).2).vocab_data := by
  intro vs
  induction vs with
  | nil => intro s e he; exact he
  | cons v rest ih =>
      intro s e he
      simp only [convertAll]
      exact ih _ e (convert_vocab_mono v target s e he)

lemma convert_refIntegrity (v : VocabObject) (target : String) (s : St)
    (h : refIntegrity s) : refIntegrity ((convert_to_vocab_entry v target s).2) := by
  obtain ⟨hr, hv⟩ := h
  rw [convert_eq]
  by_cases ht : v.translation = ""
  · simp only [if_pos ht]
    refine ⟨?_, ?_⟩
    · intro r hr' i hi
      obtain ⟨e, he, hid⟩ := hr r hr' i hi
      exact ⟨e, List.mem_append_left _ he, hid⟩
    · intro w hw i hi
      rcases List.mem_append.1 hw with h1 | h2
      · exact hv w h1 i hi
      · rw [List.mem_singleton] at h2
        subst h2
        simp [vocabEntryNoTr] at hi
  · simp only [if_neg ht]
    refine ⟨?_, ?_⟩
    · intro r hr' i hi
      obtain ⟨e, he, hid⟩ := hr r hr' i hi
      exact ⟨e, List.mem_append_left _ he, hid⟩
    · intro w hw i hi
      rcases List.mem_append.1 hw with h1 | h2
      · obtain ⟨e, he, hid⟩ := hv w h1 i hi
        exact ⟨e, List.mem_append_left _ he, hid⟩
      · rw [List.mem_singleton] at h2
        subst h2
        simp only [vocabEntryTr, Option.getD_some, List.mem_singleton] at hi
        subst hi
        exact ⟨_, List.mem_append_right _ (List.mem_singleton_self _), rfl⟩

lemma convertAll_refIntegrity (target : String) :
    ∀ (vs : List VocabObject) (s : St), refIntegrity s →
      refIntegrity ((convertAll vs target s).2) := by
  intro vs
  induction vs with
  | nil => intro s h; exact h
  | cons v rest ih =>
      intro s h
      simp only [convertAll]
      exact ih _ (convert_refIntegrity v target s h)

lemma convertAll_ids_exist (target : String) :
    ∀ (vs : List VocabObject) (s : St),
      ∀ i ∈ (convertAll vs target s).1,
        ∃ e ∈ ((convertAll vs target s).2).vocab_data, e.id = i := by
  intro vs
  induction vs with
  | nil => intro s i hi; simp [convertAll] at hi
  | cons v rest ih =>
      intro s i hi
      simp only [convertAll] at hi ⊢
      rcases List.mem_cons.1 hi with h1 | h2
      · subst h1
        have hself : ∃ e ∈ ((convert_to_vocab_entry v target s).2).vocab_data,
            e.id = (convert_to_vocab_entry v target s).1 := by
          rw [convert_eq]
          by_cases ht : v.translation = ""
          · simp only [if_pos ht]
            exact ⟨_, List.mem_append_right _ (List.mem_singleton_self _), rfl⟩
          · simp only [if_neg ht]
            exact ⟨_, List.mem_append_right _ (List.mem_singleton_self _), rfl⟩
        obtain ⟨e, he, hid⟩ := hself
        exact ⟨e, convertAll_vocab_mono target rest _ e he, hid⟩
      · exact ih _ i h2

lemma create_note_translation_data (content : String) (nt : Option String)
    (sbe : Option Bool) (s : St) :
    ((create_note content nt sbe s).2).translation_data = s.translation_data := by
  unfold create_note get_next_note_id
  split <;> rfl

lemma create_note_resource_data (content : String) (nt : Option String)
    (sbe : Option Bool) (s : St) :
    ((create_note content nt sbe s).2).resource_data = s.resource_data := by
  unfold create_note get_next_note_id
  split <;> rfl

lemma refIntegrity_create_note (content : String) (nt : Option String)
    (sbe : Option Bool) (s : St) (h : refIntegrity s) :
    refIntegrity ((create_note content nt sbe s).2) := by
  obtain ⟨hr, hw⟩ := h
  unfold create_note get_next_note_id
  split
  · exact ⟨hr, hw⟩
  · exact ⟨hr, hw⟩

lemma refIntegrity_create_resource (language title : String)
    (content : Option String) (priority : Option Int) (link : Option String)
    (vocabArg notesArg fcArg : Option (List String)) (s : St)
    (h : refIntegrity s)
    (hv : ∀ i ∈ vocabArg.getD [], ∃ e ∈ s.vocab_data, e.id = i) :
    refIntegrity ((create_resource language title content priority link
      vocabArg notesArg fcArg s).2) := by
  obtain ⟨hr, hw⟩ := h
  unfold create_resource get_next_resource_id
  refine ⟨?_, hw⟩
  intro r hr' i hi
  rcases List.mem_append.1 hr' with h1 | h2
  · exact hr r h1 i hi
  · rw [List.mem_singleton] at h2
    subst h2
    rcases vocabArg with _ | l
    · simp [truthyList] at hi
    · by_cases hl : l = []
      · simp [truthyList, hl] at hi
      · simp only [truthyList, if_neg hl, Option.getD_some] at hi
        exact hv i (by simpa using hi)

lemma ids_ref_after_note (target : String) (vs : List VocabObject) (s : St)
    (content : String) (nt : Option String) (sbe : Option Bool) :
    ∀ i ∈ ((if (convertAll vs target s).1 = [] then none
        else some ((convertAll vs target s).1) : Option (List String)).getD []),
      ∃ e ∈ ((create_note content nt sbe ((convertAll vs target s).2)).2).vocab_data,
        e.id = i := by
  intro i hi
  by_cases hids : (convertAll vs target s).1 = []
  · rw [if_pos hids] at hi
    simp at hi
  · rw [if_neg hids] at hi
    simp only [Option.getD_some] at hi
    obtain ⟨e, he, hid⟩ := convertAll_ids_exist target vs s i hi
    rw [create_note_vocab_data]
    exact ⟨e, he, hid⟩

lemma refIntegrity_process_video (vid target sub : String)
    (fetch : Except String FetchedTranscript)
    (oracle : String → String → CompletionResult) (s : St)
    (p : String × St) (hp : process_video vid target sub fetch oracle s = .ok p)
    (h : refIntegrity s) : refIntegrity p.2 := by
  rcases fetch with e | t
  · simp [process_video, download_subtitles] at hp
  · simp only [process_video, download_subtitles] at hp
    rw [Except.ok.injEq] at hp
    rw [← hp]
    exact refIntegrity_create_resource _ _ _ _ _ _ _ _ _
      (refIntegrity_create_note _ _ _ _ (convertAll_refIntegrity target _ s h))
      (ids_ref_after_note target _ s _ _ _)

lemma refIntegrity_mainLoopAux (debug : Bool) (target subtitle : String)
    (fetchOf : String → Except String FetchedTranscript)
    (oracleOf : String → String → String → CompletionResult) :
    ∀ (ids : List String) (idx : Nat) (s : St), refIntegrity s →
      refIntegrity ((mainLoopAux debug target subtitle fetchOf oracleOf
        idx ids s).1) := by
  intro ids
  induction ids with
  | nil => intro idx s h; exact h
  | cons vid rest ih =>
      intro idx s h
      simp only [mainLoopAux]
      cases hp : process_video vid target subtitle (fetchOf vid) (oracleOf vid) s with
      | error e => exact ih (idx + 1) s h
      | ok p =>
          obtain ⟨rid, s1⟩ := p
          have h1 : refIntegrity s1 :=
            refIntegrity_process_video _ _ _ _ _ _ _ hp h
          by_cases hb : debug = true ∧ 1 ≤ idx
          · simp only [if_pos hb]
            exact h1
          · simp only [if_neg hb]
            exact ih (idx + 1) s1 h1

lemma refIntegrity_initSt : refIntegrity initSt := by
  constructor <;> intro x hx <;> simp [initSt] at hx

/-- C8: at the end of any run, every vocab id referenced in some resource's
`vocab` list belongs to an entry of the vocab accumulator, and every
translation id referenced in some vocab's `translations` list belongs to an
entry of the translation accumulator. -/
theorem c8_referential_integrity (debug : Bool) (target subtitle : String)
    (fetchOf : String → Except String FetchedTranscript)
    (oracleOf : String → String → String → CompletionResult)
    (ids : List String) :
    refIntegrity ((mainLoopAux debug target subtitle fetchOf oracleOf
      0 ids initSt).1) :=
  refIntegrity_mainLoopAux debug target subtitle fetchOf oracleOf ids 0 initSt
    refIntegrity_initSt

lemma mainLoopAux_attempts_from1 (target subtitle : String)
    (fetchOf : String → Except String FetchedTranscript)
    (oracleOf : String → String → String → CompletionResult) :
    ∀ (ids : List String) (idx : Nat) (s : St), 1 ≤ idx →
      (mainLoopAux true target subtitle fetchOf oracleOf idx ids s).2.1
        = stopSpec fetchOf ids := by
  intro ids
  induction ids with
  | nil => intro idx s h; rfl
  | cons v rest ih =>
      intro idx s h
      simp only [mainLoopAux, stopSpec]
      cases hfv : fetchOf v with
      | error e =>
          simp only [process_video, download_subtitles]
          rw [ih (idx + 1) s (by omega)]
          omega
      | ok t =>
          simp only [process_video, download_subtitles]
          rw [if_pos (⟨trivial, h⟩ : True ∧ 1 ≤ idx)]

/-- C9 counterexample: with the debug limit enabled and videos a, b, c where
b's transcript fetch fails, the outer loop runs three iterations, not two —
the `continue` taken for the skipped video bypasses the two-video break
check. -/
theorem c9_counterexample :
    (mainLoopAux true "es" "ar"
        (fun v => if v = "b" then .error "TranscriptUnavailable"
          else .ok { entries := [], language_code := "ar" })
        oracleNone 0 ["a", "b", "c"] initSt).2.1 = 3 ∧
    2 < (mainLoopAux true "es" "ar"
        (fun v => if v = "b" then .error "TranscriptUnavailable"
          else .ok { entries := [], language_code := "ar" })
        oracleNone 0 ["a", "b", "c"] initSt).2.1 := by
  constructor
  · rfl
  · rw [show (mainLoopAux true "es" "ar"
        (fun v => if v = "b" then .error "TranscriptUnavailable"
          else .ok { entries := [], language_code := "ar" })
        oracleNone 0 ["a", "b", "c"] initSt).2.1 = 3 from rfl]
    omega

/-- C9 amended: with the debug limit enabled the loop always runs the first
video's iteration, then continues through consecutive failing videos —
which do not count toward the cap, because their `continue` skips the break
check — and stops with the first iteration at index 1 or later whose
processing succeeds (or at the end of the list). -/
theorem c9_amended_debug_cap (target subtitle : String)
    (fetchOf : String → Except String FetchedTranscript)
    (oracleOf : String → String → String → CompletionResult)
    (ids : List String) (s : St) :
    (mainLoopAux true target subtitle fetchOf oracleOf 0 ids s).2.1
      = match ids with
        | [] => 0
        | _ :: rest => 1 + stopSpec fetchOf rest := by
  cases ids with
  | nil => rfl
  | cons v rest =>
      simp only [mainLoopAux]
      cases hfv : fetchOf v with
      | error e =>
          simp only [process_video, download_subtitles]
          rw [mainLoopAux_attempts_from1 target subtitle fetchOf oracleOf rest 1 s
            (le_refl 1)]
          omega
      | ok t =>
          simp only [process_video, download_subtitles]
          rw [if_neg (fun hc => absurd hc.2 (by omega))]
          rw [mainLoopAux_attempts_from1 target subtitle fetchOf oracleOf rest 1 _
            (le_refl 1)]
          simp [Nat.add_comm]

lemma process_video_ok_resource_len (vid target sub : String)
    (t : FetchedTranscript) (oracle : String → String → CompletionResult)
    (s : St) (p : String × St)
    (hp : process_video vid target sub (.ok t) oracle s = .ok p) :
    p.2.resource_data.length = s.resource_data.length + 1 := by
  simp only [process_video, download_subtitles] at hp
  rw [Except.ok.injEq] at hp
  rw [← hp]
  simp [create_resource, get_next_resource_id, create_note_resource_data,
    convertAll_resource_data]

lemma mainLoopAux_resource_len (debug : Bool) (target subtitle : String)
    (fetchOf : String → Except String FetchedTranscript)
    (oracleOf : String → String → String → CompletionResult) :
    ∀ (ids : List String) (idx : Nat) (s : St),
      ((mainLoopAux debug target subtitle fetchOf oracleOf idx ids s).1).resource_data.length
        = s.resource_data.length
          + (mainLoopAux debug target subtitle fetchOf oracleOf idx ids s).2.2 := by
  intro ids
  induction ids with
  | nil => intro idx s; simp [mainLoopAux]
  | cons vid rest ih =>
      intro idx s
      simp only [mainLoopAux]
      cases hp : process_video vid target subtitle (fetchOf vid) (oracleOf vid) s with
      | error e => exact ih (idx + 1) s
      | ok p =>
          obtain ⟨rid, s1⟩ := p
          have hlen : s1.resource_data.length = s.resource_data.length + 1 := by
            cases hfv : fetchOf vid with
            | error e =>
                rw [hfv] at hp
                simp [process_video, download_subtitles] at hp
            | ok t =>
                rw [hfv] at hp
                exact process_video_ok_resource_len _ _ _ _ _ _ _ hp
          by_cases hb : debug = true ∧ 1 ≤ idx
          · simp only [if_pos hb]
            simpa using hlen
          · simp only [if_neg hb]
            show (mainLoopAux debug target subtitle fetchOf oracleOf
                (idx + 1) rest s1).1.resource_data.length
              = s.resource_data.length
                + ((mainLoopAux debug target subtitle fetchOf oracleOf
                    (idx + 1) rest s1).2.2 + 1)
            rw [ih (idx + 1) s1, hlen]
            omega

/-- C7: with readable input, a credential present and a successful write,
the run exits 0 regardless of per-video transcript failures; the number of
resources equals the number of successful video iterations (a failing video
is skipped — its iteration leaves the state unchanged, continues with the
next video, and creates no resource); and an unparsable input filename makes
the process exit 1 before touching any state. -/
theorem c7_skip_and_exit_codes (debug : Bool) (target subtitle stem : String)
    (raw : List String) (key : String)
    (fetchOf : String → Except String FetchedTranscript)
    (oracleOf : String → String → String → CompletionResult)
    (e v : String) (idx : Nat) (rest : List String) (s : St)
    (fc2 : Except String (List String)) (key2 : Option String)
    (f2 : String → Except String FetchedTranscript)
    (o2 : String → String → String → CompletionResult) (w2 : Bool)
    (hkey : key ≠ "")
    (hv : fetchOf v = .error e)
    (hstem : parseLangCodes stem = none) :
    (pyMain debug target subtitle (.ok raw) (some key) fetchOf oracleOf true).1
      = 0 ∧
    (pyMain debug target subtitle (.ok raw) (some key) fetchOf
        oracleOf true).2.resource_data.length
      = (mainLoopAux debug target subtitle fetchOf oracleOf 0
          ((raw.map pyStrip).filter (fun l => l ≠ "")) initSt).2.2 ∧
    mainLoopAux debug target subtitle fetchOf oracleOf idx (v :: rest) s
      = ((mainLoopAux debug target subtitle fetchOf oracleOf (idx + 1) rest s).1,
         (mainLoopAux debug target subtitle fetchOf oracleOf (idx + 1) rest s).2.1 + 1,
         (mainLoopAux debug target subtitle fetchOf oracleOf (idx + 1) rest s).2.2) ∧
    program stem debug fc2 key2 f2 o2 w2 = (1, initSt) := by
  refine ⟨?_, ?_, ?_, ?_⟩
  · simp [pyMain, get_openai_client, hkey]
  · simp only [pyMain, get_openai_client]
    rw [if_neg hkey]
    rw [if_pos trivial]
    rw [mainLoopAux_resource_len]
    simp [initSt]
  · simp only [mainLoopAux]
    rw [hv]
    simp [process_video, download_subtitles]
  · unfold program
    rw [hstem]

theorem c7_witness :
    (pyMain true "es" "ar" (.ok ["a"]) (some "k") fetchNone oracleNone true).1
      = 0 ∧
    (pyMain true "es" "ar" (.ok ["a"]) (some "k") fetchNone
        oracleNone true).2.resource_data.length
      = (mainLoopAux true "es" "ar" fetchNone oracleNone 0
          ((["a"].map pyStrip).filter (fun l => l ≠ "")) initSt).2.2 ∧
    mainLoopAux true "es" "ar" fetchNone oracleNone 0 ["a"] initSt
      = ((mainLoopAux true "es" "ar" fetchNone oracleNone 1 [] initSt).1,
         (mainLoopAux true "es" "ar" fetchNone oracleNone 1 [] initSt).2.1 + 1,
         (mainLoopAux true "es" "ar" fetchNone oracleNone 1 [] initSt).2.2) ∧
    program "esar" true (.ok []) none fetchNone oracleNone true = (1, initSt) :=
  c7_skip_and_exit_codes true "es" "ar" "esar" ["a"] "k" fetchNone oracleNone
    "TranscriptUnavailable" "a" 0 [] initSt (.ok []) none fetchNone oracleNone
    true (by decide) rfl rfl
